import Mathlib

/-!
# Verification of the `petri_dish` Google Sheet connector

Shallow embedding of `src/petri_dish/connectors.py` (class
`GoogleSheetConnector`) and proofs about it.

The connector exchanges data between a pandas `DataFrame` and a Google
Sheets worksheet through the `gspread` client library.  The embedding
models:

* cell values (`Value`): strings, integers, and pandas' NaN;
* a worksheet as a rectangular grid of values (`Grid`), a spreadsheet as
  a list of worksheets (`Spreadsheet`);
* the gspread operations the source calls (`wsRange` for
  `worksheet.range`, `update_cells` for `worksheet.update_cells`,
  `get_all_values` / `get_all_records` / `row_values` for the read side),
  following the library's documented behaviour: `get_all_values` returns
  the bounding rectangle of non-empty cells, `get_all_records(head=1)`
  zips header row 1 with each later row, `row_values(1)` returns row 1 up
  to its last non-empty cell;
* the pandas operations the source calls (`DataFrame(records, columns)`,
  column access by name, `astype`);
* the Drive-level state used by `open` (titles, ids, share records),
  together with an explicit trace of remote calls so that claims about
  "exactly one create / share / batched update call" are statable.

The source methods `open`, `_shape_to_range`, `write` and `read` are
translated as `GoogleSheetConnector.openSpreadsheet`, `shape_to_range`,
`write` and `read`.  Note that `__init__` assigns `self.client`,
`self.client.session` and `self.share_with` but never `self.creds`,
while `open`'s not-found branch reads `self.creds`; the embedding keeps
`creds` as an `Option` field left `none` by `connectorInit` so that this
attribute access is modelled faithfully.
-/

/-- Cell / table values: strings, integers, and pandas' NaN (used for a
missing record key when a table is built from records). -/
inductive Value where
  | vStr (s : String)
  | vInt (n : Int)
  | vNaN
deriving Repr, DecidableEq

/-- Target types for the `data_types` cast map of `read`: Python `int`
and `str`. -/
inductive DType where
  | dInt
  | dStr
deriving Repr, DecidableEq

/-- String conversion as Python `str()` performs it on our values. -/
def pyStr : Value → String
  | .vStr s => s
  | .vInt n => toString n
  | .vNaN => "nan"

/-- Value of a decimal digit character, if it is one. -/
def digitVal? (ch : Char) : Option Nat :=
  if 48 ≤ ch.toNat ∧ ch.toNat ≤ 57 then some (ch.toNat - 48) else none

/-- Accumulate a decimal numeral; fails on any non-digit character. -/
def digitsToNat : List Char → Nat → Option Nat
  | [], acc => some acc
  | ch :: rest, acc =>
    match digitVal? ch with
    | some d => digitsToNat rest (acc * 10 + d)
    | none => none

/-- Python `int(string)` parsing as pandas `astype(int)` applies it to a
string cell: an optional sign followed by at least one decimal digit;
anything else fails. -/
def parsePyInt? (s : String) : Option Int :=
  match s.data with
  | [] => none
  | ch :: rest =>
    if ch = '-' then
      if rest = [] then none else (digitsToNat rest 0).map (fun n => -(n : Int))
    else if ch = '+' then
      if rest = [] then none else (digitsToNat rest 0).map (fun n => (n : Int))
    else (digitsToNat (ch :: rest) 0).map (fun n => (n : Int))

/-- Casting one value, as pandas `Series.astype` does elementwise:
casting to `int` parses integer literals and fails on anything else
(including NaN); casting to `str` always succeeds. -/
def castValue : DType → Value → Option Value
  | .dInt, .vInt n => some (.vInt n)
  | .dInt, .vStr s => (parsePyInt? s).map .vInt
  | .dInt, .vNaN => none
  | .dStr, v => some (.vStr (pyStr v))

/-- Casting a whole column fails iff any element fails, as pandas
`astype` does. -/
def castColumn (ty : DType) (vals : List Value) : Option (List Value) :=
  vals.mapM (castValue ty)

/-- A worksheet: a grid of cell values, row-major, 0-based lists standing
for the 1-based sheet coordinates. -/
abbrev Grid := List (List Value)

/-- A spreadsheet: its list of worksheets, `get_worksheet i` being the
worksheet at 0-based index `i`. -/
abbrev Spreadsheet := List Grid

/-- The value gspread reports for a cell never written: the empty
string. -/
def blankVal : Value := Value.vStr ""

/-- Emptiness test used by gspread (`value != ''` style comparisons). -/
def isEmptyVal (v : Value) : Bool := decide (v = blankVal)

/-- A blank worksheet with `r` rows and `c` columns. -/
def blankGrid (r c : Nat) : Grid := List.replicate r (List.replicate c blankVal)

/-- Number of rows of a worksheet grid. -/
def numRows (g : Grid) : Nat := g.length

/-- Number of columns of a worksheet grid (its first row's width; all
rows of a real worksheet have equal width). -/
def numCols (g : Grid) : Nat := (g.headD []).length

/-- Cell value at 1-based coordinates, empty string when out of range. -/
def getCell (g : Grid) (row col : Nat) : Value :=
  (g.getD (row - 1) []).getD (col - 1) blankVal

/-- Overwrite the cell at 1-based coordinates (no-op out of range). -/
def setCell (g : Grid) (row col : Nat) (v : Value) : Grid :=
  g.set (row - 1) ((g.getD (row - 1) []).set (col - 1) v)

/-- A gspread `Cell`: 1-based row and column plus a value. -/
structure Cell where
  row : Nat
  col : Nat
  value : Value
deriving Repr, DecidableEq

/-- gspread `worksheet.range(first_row, first_col, last_row, last_col)`:
the cells of that rectangle in row-major order; fails (`none`) when the
rectangle exceeds the sheet's grid. -/
def wsRange (g : Grid) (r1 c1 r2 c2 : Nat) : Option (List Cell) :=
  if r2 ≤ numRows g ∧ c2 ≤ numCols g then
    some (((List.range' r1 (r2 + 1 - r1)).map (fun row =>
      (List.range' c1 (c2 + 1 - c1)).map (fun col =>
        Cell.mk row col (getCell g row col)))).flatten)
  else none

/-- gspread `worksheet.update_cells(cell_list)`: one batched update
applying every cell of the list to the grid. -/
def update_cells (g : Grid) (cells : List Cell) : Grid :=
  cells.foldl (fun acc cl => setCell acc cl.row cl.col cl.value) g

/-- An in-memory pandas `DataFrame`: ordered column names (pandas labels
may be any value) and rows of values; `data` is row-major and each row
has one entry per column. -/
structure DataFrame where
  columns : List Value
  data : List (List Value)
deriving Repr, DecidableEq

/-- pandas `dataframe.shape`: (row count, column count). -/
def DataFrame.shape (df : DataFrame) : Nat × Nat :=
  (df.data.length, df.columns.length)

/-- pandas `dataframe[name][i]`: column selected by label (first match,
as pandas does for a unique label) then the row at positional index
`i`. -/
def DataFrame.valueByName (df : DataFrame) (name : Value) (i : Nat) : Value :=
  (df.data.getD i []).getD (df.columns.findIdx (fun c => decide (c = name))) Value.vNaN

/-- Column values at positional index `i`. -/
def DataFrame.colValuesAt (df : DataFrame) (i : Nat) : List Value :=
  df.data.map (fun row => row.getD i Value.vNaN)

/-- Column values selected by label, as `dataframe[col]` reads them. -/
def DataFrame.colByName (df : DataFrame) (col : Value) : List Value :=
  df.colValuesAt (df.columns.findIdx (fun c => decide (c = col)))

/-- Source `GoogleSheetConnector._shape_to_range(dataframe, headers)`:
the range `(1, 1, row_count + 1, col_count)` with headers, or
`(1, 1, row_count, col_count)` without. -/
def shape_to_range (df : DataFrame) (headers : Bool) : Nat × Nat × Nat × Nat :=
  let rc := df.shape
  if headers then (1, 1, rc.1 + 1, rc.2) else (1, 1, rc.1, rc.2)

/-- Remote calls `write` makes against the spreadsheet API. -/
inductive SheetCall where
  | getWorksheetCall (index : Nat)
  | rangeCall (r1 c1 r2 c2 : Nat)
  | updateCellsCall (cells : List Cell)
deriving Repr, DecidableEq

/-- Test for the batched cell-update call. -/
def isUpdateCellsCall : SheetCall → Bool
  | .updateCellsCall _ => true
  | _ => false

/-- The cell assignment of the `write` loop: a row-1 cell receives the
column name at its column position (`col_indexes[cell.col - 1]`), any
other cell receives `dataframe[col_indexes[cell.col - 1]][cell.row - 2]`. -/
def assignCell (df : DataFrame) (cl : Cell) : Cell :=
  if cl.row = 1 then
    { cl with value := df.columns.getD (cl.col - 1) Value.vNaN }
  else
    { cl with value := df.valueByName (df.columns.getD (cl.col - 1) Value.vNaN) (cl.row - 2) }

/-- Source `GoogleSheetConnector.write(sheet, dataframe,
worksheet_number)`: resolve the worksheet at 0-based index
`worksheet_number - 1`, fetch the header-sized range, assign every
fetched cell, and push the assignments as one `update_cells` batch.
Returns the updated spreadsheet together with the trace of remote calls;
`none` when the worksheet is missing or the range exceeds its grid. -/
def write (s : Spreadsheet) (df : DataFrame) (worksheet_number : Nat) :
    Option (Spreadsheet × List SheetCall) :=
  match s.get? (worksheet_number - 1) with
  | none => none
  | some ws =>
    match shape_to_range df true with
    | (r1, c1, r2, c2) =>
      match wsRange ws r1 c1 r2 c2 with
      | none => none
      | some cellList =>
        let assigned := cellList.map (assignCell df)
        some (s.set (worksheet_number - 1) (update_cells ws assigned),
          [SheetCall.getWorksheetCall (worksheet_number - 1),
           SheetCall.rangeCall r1 c1 r2 c2,
           SheetCall.updateCellsCall assigned])

/-- Drop the longest trailing segment satisfying `p`. -/
def trimTrailing (p : α → Bool) (l : List α) : List α :=
  (l.reverse.dropWhile p).reverse

/-- gspread `worksheet.get_all_values()`: the bounding rectangle of
non-empty cells, i.e. the grid with trailing all-empty rows and trailing
all-empty columns removed. -/
def get_all_values (g : Grid) : Grid :=
  let rows := trimTrailing (fun row => row.all isEmptyVal) g
  let width := (rows.map (fun row => (trimTrailing isEmptyVal row).length)).foldr Nat.max 0
  rows.map (fun row => row.take width)

/-- gspread `worksheet.row_values(1)`: the first row's values up to its
last non-empty cell. -/
def row_values1 (g : Grid) : List Value :=
  trimTrailing isEmptyVal (g.headD [])

/-- gspread `worksheet.get_all_records(head=1)`: keys are row 1 of
`get_all_values`, each later row becomes one record. -/
def get_all_records (g : Grid) : List (List (Value × Value)) :=
  match get_all_values g with
  | [] => []
  | keys :: rows => rows.map (fun row => keys.zip row)

/-- Lookup in a Python dict built by `dict(zip(keys, row))`: the last
binding of a key wins. -/
def dictGet (l : List (Value × Value)) (k : Value) : Option Value :=
  l.foldl (fun acc p => if p.1 = k then some p.2 else acc) none

/-- pandas `DataFrame(records, columns=columns)`: one row per record,
each row listing the record's value for each requested column (NaN when
the record lacks the key). -/
def pandasDataFrame (contents : List (List (Value × Value))) (columns : List Value) :
    DataFrame :=
  ⟨columns, contents.map (fun rec => columns.map (fun c => (dictGet rec c).getD Value.vNaN))⟩

/-- Errors `read` can raise: the `KeyError` for a cast column missing
from the sheet, and the typecast failure naming column and dtype. -/
inductive ReadError where
  | keyError (col : Value)
  | castError (col : Value) (ty : DType)
deriving Repr, DecidableEq

/-- One iteration of the `data_types` loop of `read`: membership check
first (`KeyError` when absent), then `astype`, replacing the column on
success and failing with the descriptive cast error otherwise. -/
def applyCast (df : DataFrame) (col : Value) (ty : DType) : Except ReadError DataFrame :=
  if col ∈ df.columns then
    match castColumn ty (df.colValuesAt (df.columns.findIdx (fun c => decide (c = col)))) with
    | some vals => .ok ⟨df.columns, List.zipWith
        (fun row v => row.set (df.columns.findIdx (fun c => decide (c = col))) v)
        df.data vals⟩
    | none => .error (.castError col ty)
  else .error (.keyError col)

/-- Worksheet-level body of source `GoogleSheetConnector.read`: fetch the
records with header row 1, keep the non-empty header cells as columns,
build the dataframe, then run the `data_types` loop in order. -/
def readWs (g : Grid) (data_types : Option (List (Value × DType))) :
    Except ReadError DataFrame :=
  let contents := get_all_records g
  let columns := (row_values1 g).filter (fun v => !(isEmptyVal v))
  let df := pandasDataFrame contents columns
  match data_types with
  | none => .ok df
  | some m => m.foldl (fun acc p => acc.bind (fun d => applyCast d p.1 p.2)) (.ok df)

/-- Source `GoogleSheetConnector.read(sheet, worksheet_number,
data_types)`: resolve the worksheet at 0-based index
`worksheet_number - 1` and read it; `none` when the worksheet is
missing. -/
def read (s : Spreadsheet) (worksheet_number : Nat)
    (data_types : Option (List (Value × DType))) :
    Option (Except ReadError DataFrame) :=
  (s.get? (worksheet_number - 1)).map (fun g => readWs g data_types)

/-! ## The Drive-level model used by `open` -/

/-- A remote spreadsheet resource as `open` and `create` see it. -/
structure DriveSheet where
  title : String
  id : Nat
deriving Repr, DecidableEq

/-- One recorded `share` grant. -/
structure ShareRec where
  sheetId : Nat
  grantee : String
  permType : String
  role : String
deriving Repr, DecidableEq

/-- Remote Drive state: the accessible spreadsheets, the recorded share
grants, and the next fresh id. -/
structure DriveState where
  sheets : List DriveSheet
  shares : List ShareRec
  nextId : Nat
deriving Repr, DecidableEq

/-- Remote calls `open` makes. -/
inductive DriveCall where
  | openCall (title : String)
  | createCall (title : String)
  | shareCall (sheetId : Nat) (grantee : String) (permType : String) (role : String)
deriving Repr, DecidableEq

/-- Test for the creation call. -/
def isCreateCall : DriveCall → Bool
  | .createCall _ => true
  | _ => false

/-- Test for the share call. -/
def isShareCall : DriveCall → Bool
  | .shareCall _ _ _ _ => true
  | _ => false

/-- The connector's attribute state: `__init__` assigns `share_with`;
`creds` stays `none` because `__init__` never assigns `self.creds` (the
credentials live only in local variables there). -/
structure GoogleSheetConnector where
  share_with : Option String
  creds : Option String
deriving Repr, DecidableEq

/-- Source `GoogleSheetConnector.__init__`: records `share_with`, leaves
the `creds` attribute unset. -/
def connectorInit (share_with : Option String) : GoogleSheetConnector :=
  ⟨share_with, none⟩

/-- gspread `client.open(title)`: first accessible spreadsheet with that
exact title, if any. -/
def clientOpen (st : DriveState) (title : String) : Option DriveSheet :=
  st.sheets.find? (fun s => decide (s.title = title))

/-- Python truthiness of the optional `share_with` string: `None` and
the empty string are falsy. -/
def truthy : Option String → Bool
  | none => false
  | some s => decide (s ≠ "")

/-- Errors `open` can raise: the `AttributeError` from reading the unset
`creds` attribute, the not-found message, and the configuration error
when `share_with` is unset. -/
inductive OpenError where
  | attributeError (attr : String)
  | notFound (msg : String)
  | configError (msg : String)
deriving Repr, DecidableEq

/-- Source `GoogleSheetConnector.open(sheet_title, create)`: return the
spreadsheet when the title resolves; when it does not, either fail (for
`create=False` the code builds a not-found message from `self.creds`,
an attribute `__init__` never set, so the attribute read itself fails
first), or check `share_with` truthiness, create, and share.  Returns
the result, the new Drive state, and the trace of remote calls. -/
def GoogleSheetConnector.openSpreadsheet (conn : GoogleSheetConnector)
    (st : DriveState) (title : String) (create : Bool) :
    Except OpenError DriveSheet × DriveState × List DriveCall :=
  match clientOpen st title with
  | some sh => (.ok sh, st, [.openCall title])
  | none =>
    if create = false then
      match conn.creds with
      | none => (.error (.attributeError "creds"), st, [.openCall title])
      | some email =>
        (.error (.notFound ("Spreadsheet " ++ title ++
          " not found. Try sharing spreadsheet with " ++ email)), st,
          [.openCall title])
    else if truthy conn.share_with = false then
      (.error (.configError "Creating sheets is not possible if \"share_with\" is unset."),
        st, [.openCall title])
    else
      let sheet : DriveSheet := ⟨title, st.nextId⟩
      let grantee := conn.share_with.getD ""
      let st2 : DriveState :=
        ⟨st.sheets ++ [sheet], st.shares ++ [⟨sheet.id, grantee, "user", "writer"⟩],
          st.nextId + 1⟩
      (.ok sheet, st2,
        [.openCall title, .createCall title, .shareCall sheet.id grantee "user" "writer"])

/-! ## Generic helper lemmas -/

instance {ε α : Type} [DecidableEq ε] [DecidableEq α] : DecidableEq (Except ε α) := fun a b =>
  match a, b with
  | .error e, .error f =>
    if h : e = f then .isTrue (by rw [h]) else .isFalse (fun c => h (Except.error.inj c))
  | .error _, .ok _ => .isFalse (fun c => Except.noConfusion c)
  | .ok _, .error _ => .isFalse (fun c => Except.noConfusion c)
  | .ok a, .ok b =>
    if h : a = b then .isTrue (by rw [h]) else .isFalse (fun c => h (Except.ok.inj c))

theorem set_getD_self {α : Type} (l : List α) (n : Nat) (d : α) :
    l.set n (l.getD n d) = l := by
  by_cases h : n < l.length
  · apply List.ext_getElem?
    intro m
    rw [List.getElem?_set]
    by_cases hm : n = m
    · subst hm
      simp [h, List.getD_eq_getElem l d h, List.getElem?_eq_getElem h]
    · simp [hm]
  · exact List.set_eq_of_length_le (Nat.le_of_not_lt h)

theorem take_set_succ {α : Type} (l : List α) (k : Nat) (v : α) (hk : k < l.length) :
    (l.set k v).take (k + 1) = l.take k ++ [v] := by
  rw [List.set_eq_take_cons_drop v hk]
  have hlen : k + 1 = (l.take k).length + 1 := by
    rw [List.length_take]; omega
  rw [hlen, List.take_append]
  simp

theorem drop_set_of_lt {α : Type} (l : List α) (k j : Nat) (v : α) (hkj : k < j) :
    (l.set k v).drop j = l.drop j := by
  by_cases h : k < l.length
  · rw [List.set_eq_take_cons_drop v h]
    have h1 : l.take k ++ v :: l.drop (k + 1) = (l.take k ++ [v]) ++ l.drop (k + 1) := by
      simp
    have hlen : (l.take k ++ [v]).length = k + 1 := by
      simp [List.length_take]; omega
    have hj : j = (l.take k ++ [v]).length + (j - (k + 1)) := by
      rw [hlen]; omega
    rw [h1, hj, List.drop_append, List.drop_drop]
    congr 1
    omega
  · rw [List.set_eq_of_length_le (Nat.le_of_not_lt h)]

theorem getD_set_self {α : Type} (l : List α) (n : Nat) (x d : α) (h : n < l.length) :
    (l.set n x).getD n d = x := by
  rw [List.getD_eq_getElem?_getD, List.getElem?_set]
  simp [h]

theorem getD_set_ne {α : Type} (l : List α) (n m : Nat) (x d : α) (h : n ≠ m) :
    (l.set n x).getD m d = l.getD m d := by
  rw [List.getD_eq_getElem?_getD, List.getElem?_set, List.getD_eq_getElem?_getD]
  simp [h]

theorem dropWhile_append_all {α : Type} {p : α → Bool} {a b : List α}
    (h : ∀ x ∈ a, p x = true) : List.dropWhile p (a ++ b) = List.dropWhile p b := by
  induction a with
  | nil => rfl
  | cons x xs ih =>
    rw [List.cons_append, List.dropWhile_cons, if_pos (h x (by simp))]
    exact ih (fun y hy => h y (by simp [hy]))

theorem trimTrailing_append_all {α : Type} {p : α → Bool} {xs junk : List α}
    (h : ∀ x ∈ junk, p x = true) : trimTrailing p (xs ++ junk) = trimTrailing p xs := by
  unfold trimTrailing
  rw [List.reverse_append, dropWhile_append_all (fun x hx => h x (by simpa using hx))]

theorem trimTrailing_of_getLast {α : Type} {p : α → Bool} {l : List α}
    (hne : l ≠ []) (h : p (l.getLast hne) = false) : trimTrailing p l = l := by
  rcases List.eq_nil_or_concat l with hnil | ⟨L, b, hcat⟩
  · exact absurd hnil hne
  · subst hcat
    have hb : p b = false := by
      simpa [List.getLast_concat] using h
    unfold trimTrailing
    rw [List.concat_eq_append, List.reverse_append]
    simp [List.dropWhile_cons, hb]

theorem length_dropWhile_le' {α : Type} (p : α → Bool) (l : List α) :
    (List.dropWhile p l).length ≤ l.length := by
  induction l with
  | nil => simp
  | cons x xs ih =>
    rw [List.dropWhile_cons]
    split
    · exact Nat.le_succ_of_le ih
    · simp

theorem trimTrailing_length_le {α : Type} (p : α → Bool) (l : List α) :
    (trimTrailing p l).length ≤ l.length := by
  unfold trimTrailing
  calc (l.reverse.dropWhile p).reverse.length
      = (l.reverse.dropWhile p).length := List.length_reverse _
    _ ≤ l.reverse.length := length_dropWhile_le' p l.reverse
    _ = l.length := List.length_reverse _

theorem trimTrailing_append_dropped {α : Type} (p : α → Bool) (l : List α) :
    trimTrailing p l ++ (l.reverse.takeWhile p).reverse = l := by
  unfold trimTrailing
  rw [← List.reverse_append, List.takeWhile_append_dropWhile, List.reverse_reverse]

theorem filter_trimTrailing {α : Type} (p : α → Bool) (l : List α) :
    (trimTrailing p l).filter (fun v => !(p v)) = l.filter (fun v => !(p v)) := by
  conv_rhs => rw [← trimTrailing_append_dropped p l]
  rw [List.filter_append]
  have hdrop : ((l.reverse.takeWhile p).reverse.filter (fun v => !(p v))) = [] := by
    rw [List.filter_eq_nil_iff]
    intro a ha
    have : p a = true := List.mem_takeWhile_imp (by simpa using ha)
    simp [this]
  rw [hdrop, List.append_nil]

theorem foldr_max_le {c : Nat} {l : List Nat} (h : ∀ w ∈ l, w ≤ c) :
    List.foldr Nat.max 0 l ≤ c := by
  induction l with
  | nil => simp
  | cons x xs ih =>
    simp only [List.foldr_cons]
    exact Nat.max_le.mpr ⟨h x (by simp), ih (fun w hw => h w (by simp [hw]))⟩

theorem foldr_max_head {c : Nat} {l : List Nat} (h : ∀ w ∈ l, w ≤ c) :
    List.foldr Nat.max 0 (c :: l) = c := by
  simp only [List.foldr_cons]
  exact Nat.max_eq_left (foldr_max_le h)

theorem dictGet_acc (l : List (Value × Value)) (k : Value) (acc : Option Value) :
    l.foldl (fun acc p => if p.1 = k then some p.2 else acc) acc
      = match dictGet l k with
        | some v => some v
        | none => acc := by
  induction l generalizing acc with
  | nil => simp [dictGet]
  | cons p rest ih =>
    show rest.foldl _ (if p.1 = k then some p.2 else acc) = _
    rw [ih]
    have hd : dictGet (p :: rest) k
        = rest.foldl (fun acc q => if q.1 = k then some q.2 else acc)
            (if p.1 = k then some p.2 else none) := rfl
    rw [hd, ih]
    cases hres : dictGet rest k with
    | some v => rfl
    | none =>
      by_cases hp : p.1 = k
      · simp [hp]
      · simp [hp]

theorem dictGet_cons (p : Value × Value) (l : List (Value × Value)) (k : Value) :
    dictGet (p :: l) k
      = match dictGet l k with
        | some v => some v
        | none => if p.1 = k then some p.2 else none := by
  show l.foldl _ (if p.1 = k then some p.2 else none) = _
  rw [dictGet_acc]

theorem dictGet_not_mem {l : List (Value × Value)} {k : Value}
    (h : k ∉ l.map Prod.fst) : dictGet l k = none := by
  induction l with
  | nil => rfl
  | cons p rest ih =>
    rw [dictGet_cons, ih (fun hmem => h (by simp [hmem]))]
    have hp : p.1 ≠ k := by
      intro he
      exact h (by simp [he])
    simp [hp]

theorem dictGet_zip_self {keys vals : List Value} {d : Value}
    (hnd : keys.Nodup) (hlen : keys.length = vals.length) :
    keys.map (fun k => (dictGet (keys.zip vals) k).getD d) = vals := by
  induction keys generalizing vals with
  | nil =>
    cases vals with
    | nil => rfl
    | cons v vs => simp at hlen
  | cons k0 ks ih =>
    cases vals with
    | nil => simp at hlen
    | cons v0 vs =>
      have hk0 : k0 ∉ ks := (List.nodup_cons.mp hnd).1
      have hnd' : ks.Nodup := (List.nodup_cons.mp hnd).2
      have hlen' : ks.length = vs.length := by simpa using hlen
      rw [List.zip_cons_cons, List.map_cons]
      have hhead : (dictGet ((k0, v0) :: ks.zip vs) k0).getD d = v0 := by
        rw [dictGet_cons]
        have hnm : k0 ∉ (ks.zip vs).map Prod.fst := by
          rw [List.map_fst_zip ks vs (by omega)]
          exact hk0
        rw [dictGet_not_mem hnm]
        simp
      have htail : ks.map (fun k => (dictGet ((k0, v0) :: ks.zip vs) k).getD d)
          = ks.map (fun k => (dictGet (ks.zip vs) k).getD d) := by
        apply List.map_congr_left
        intro k hk
        have hne : k0 ≠ k := fun he => hk0 (he ▸ hk)
        rw [dictGet_cons]
        cases hres : dictGet (ks.zip vs) k with
        | some v => rfl
        | none => simp [hne]
      rw [hhead, htail, ih hnd' hlen']

/-! ## Characterising `update_cells` on the row-major rectangle -/

/-- Overlay a list of values onto the front of a row, keeping the row's
tail. -/
def overlay (vs row : List Value) : List Value := vs ++ row.drop vs.length

/-- Overlay a list of rows onto the front rows of a grid, keeping the
remaining rows. -/
def overlayRows : List (List Value) → Grid → Grid
  | [], rest => rest
  | _ :: _, [] => []
  | vs :: more, row :: rest => overlay vs row :: overlayRows more rest

/-- The cells writing `vs` into sheet row `i` starting at sheet column
`k + 1`. -/
def rowCellsFrom (i k : Nat) (vs : List Value) : List Cell :=
  (List.enumFrom k vs).map (fun p => Cell.mk i (p.1 + 1) p.2)

/-- The cells writing `vs` into sheet row `i` starting at column 1. -/
def rowCells (i : Nat) (vs : List Value) : List Cell := rowCellsFrom i 0 vs

/-- The row-major cells writing consecutive rows starting at sheet row
`i`. -/
def rowsCells : Nat → List (List Value) → List Cell
  | _, [] => []
  | i, vs :: more => rowCells i vs ++ rowsCells (i + 1) more

theorem update_cells_append (g : Grid) (a b : List Cell) :
    update_cells g (a ++ b) = update_cells (update_cells g a) b :=
  List.foldl_append _ _ _ _

theorem update_cells_rowCellsFrom (vs : List Value) (g : Grid) (i k : Nat)
    (hlt : i - 1 < g.length)
    (hfit : k + vs.length ≤ (g.getD (i - 1) []).length) :
    update_cells g (rowCellsFrom i k vs)
      = g.set (i - 1) ((g.getD (i - 1) []).take k ++ vs
          ++ (g.getD (i - 1) []).drop (k + vs.length)) := by
  induction vs generalizing g k with
  | nil =>
    show g = _
    simp only [List.length_nil, Nat.add_zero, List.append_nil]
    rw [List.take_append_drop]
    exact (set_getD_self g (i - 1) []).symm
  | cons v vs ih =>
    have hstep : rowCellsFrom i k (v :: vs)
        = Cell.mk i (k + 1) v :: rowCellsFrom i (k + 1) vs := by
      simp [rowCellsFrom, List.enumFrom_cons]
    rw [hstep]
    have hk : k < (g.getD (i - 1) []).length := by
      simp only [List.length_cons] at hfit
      omega
    have hcell : update_cells g (Cell.mk i (k + 1) v :: rowCellsFrom i (k + 1) vs)
        = update_cells (g.set (i - 1) ((g.getD (i - 1) []).set k v))
            (rowCellsFrom i (k + 1) vs) := rfl
    rw [hcell]
    have hlt1 : i - 1 < (g.set (i - 1) ((g.getD (i - 1) []).set k v)).length := by
      rw [List.length_set]
      exact hlt
    have hrow1 : (g.set (i - 1) ((g.getD (i - 1) []).set k v)).getD (i - 1) []
        = (g.getD (i - 1) []).set k v := getD_set_self _ _ _ _ hlt
    have hfit1 : (k + 1) + vs.length
        ≤ ((g.set (i - 1) ((g.getD (i - 1) []).set k v)).getD (i - 1) []).length := by
      rw [hrow1, List.length_set]
      simp only [List.length_cons] at hfit
      omega
    rw [ih _ _ hlt1 hfit1, hrow1, List.set_set]
    congr 1
    rw [take_set_succ _ _ _ hk, drop_set_of_lt _ _ _ _ (by omega)]
    have harith : k + 1 + vs.length = k + (v :: vs).length := by
      simp
      omega
    rw [harith]
    simp

theorem update_cells_rowsCells (rv : List (List Value)) (g : Grid) (i : Nat)
    (hi : 1 ≤ i) (hlen : (i - 1) + rv.length ≤ g.length)
    (hfit : ∀ k, k < rv.length → (rv.getD k []).length ≤ (g.getD (i - 1 + k) []).length) :
    update_cells g (rowsCells i rv) = g.take (i - 1) ++ overlayRows rv (g.drop (i - 1)) := by
  induction rv generalizing g i with
  | nil =>
    show g = _
    rw [show overlayRows [] (g.drop (i - 1)) = g.drop (i - 1) from rfl,
      List.take_append_drop]
  | cons vs more ih =>
    have hlt : i - 1 < g.length := by
      simp only [List.length_cons] at hlen
      omega
    have hrow : update_cells g (rowCells i vs)
        = g.set (i - 1) (overlay vs (g.getD (i - 1) [])) := by
      have hf0 := hfit 0 (by simp)
      simp only [List.getD_cons_zero, Nat.add_zero] at hf0
      have := update_cells_rowCellsFrom vs g i 0 hlt (by simpa using hf0)
      simpa [rowCells, overlay] using this
    show update_cells g (rowCells i vs ++ rowsCells (i + 1) more) = _
    rw [update_cells_append, hrow]
    have hlen1 : ((i + 1) - 1) + more.length
        ≤ (g.set (i - 1) (overlay vs (g.getD (i - 1) []))).length := by
      rw [List.length_set]
      simp only [List.length_cons] at hlen
      omega
    have hfit1 : ∀ k, k < more.length →
        (more.getD k []).length
          ≤ ((g.set (i - 1) (overlay vs (g.getD (i - 1) []))).getD ((i + 1) - 1 + k) []).length := by
      intro k hk
      have hne : i - 1 ≠ (i + 1) - 1 + k := by omega
      rw [getD_set_ne _ _ _ _ _ hne]
      have := hfit (k + 1) (by simp; omega)
      simpa [show i - 1 + (k + 1) = (i + 1) - 1 + k by omega] using this
    rw [ih _ _ (by omega) hlen1 hfit1]
    have htake : (g.set (i - 1) (overlay vs (g.getD (i - 1) []))).take ((i + 1) - 1)
        = g.take (i - 1) ++ [overlay vs (g.getD (i - 1) [])] := by
      have : (i + 1) - 1 = (i - 1) + 1 := by omega
      rw [this]
      exact take_set_succ _ _ _ hlt
    have hdrop : (g.set (i - 1) (overlay vs (g.getD (i - 1) []))).drop ((i + 1) - 1)
        = g.drop i := by
      have h1 : (i + 1) - 1 = i := by omega
      rw [h1]
      exact drop_set_of_lt _ _ _ _ (by omega)
    rw [htake, hdrop]
    have hsplit : g.drop (i - 1) = (g.getD (i - 1) []) :: g.drop ((i - 1) + 1) := by
      rw [List.getD_eq_getElem _ _ hlt]
      exact List.drop_eq_getElem_cons hlt
    rw [show (i - 1) + 1 = i by omega] at hsplit
    rw [hsplit]
    show _ = g.take (i - 1) ++ (overlay vs (g.getD (i - 1) []) :: overlayRows more (g.drop i))
    simp

theorem findIdx_nodup_getElem {l : List Value} (hnd : l.Nodup) (k : Nat) (hk : k < l.length) :
    l.findIdx (fun x => decide (x = l[k])) = k := by
  induction l generalizing k with
  | nil => simp at hk
  | cons a rest ih =>
    cases k with
    | zero => simp [List.findIdx_cons]
    | succ t =>
      have ha : a ∉ rest := (List.nodup_cons.mp hnd).1
      have ht : t < rest.length := by simpa using hk
      have hval : (a :: rest)[t + 1] = rest[t] := by simp
      have hne : a ≠ rest[t] := by
        intro he
        exact ha (he ▸ List.getElem_mem ht)
      rw [List.findIdx_cons]
      have hcond : (decide (a = (a :: rest)[t + 1])) = false := by
        simp only [hval]
        simpa using hne
      rw [hcond]
      simp only [hval, cond_false]
      rw [ih (List.nodup_cons.mp hnd).2 t ht]

theorem flatten_map_eq_rowsCells (c : Nat) (F : Nat → Nat → Value)
    (rv : List (List Value)) (i : Nat)
    (hlen : ∀ k, k < rv.length → (rv.getD k []).length = c)
    (hF : ∀ k, k < rv.length → ∀ t, t < c →
      F (i + k) (t + 1) = (rv.getD k []).getD t Value.vNaN) :
    ((List.range' i rv.length).map (fun row =>
        (List.range' 1 c).map (fun col => Cell.mk row col (F row col)))).flatten
      = rowsCells i rv := by
  induction rv generalizing i with
  | nil => rfl
  | cons vs more ih =>
    have hstep : (vs :: more).length = more.length + 1 := rfl
    rw [hstep, List.range'_succ, List.map_cons, List.flatten_cons]
    have hvslen : vs.length = c := by
      have := hlen 0 (by simp)
      simpa using this
    have hhead : (List.range' 1 c).map (fun col => Cell.mk i col (F i col))
        = rowCells i vs := by
      apply List.ext_getElem
      · simp [rowCells, rowCellsFrom, hvslen]
      · intro t h1 h2
        have htc : t < c := by simpa [List.length_range'] using h1
        have htv : t < vs.length := by omega
        have hL : ((List.range' 1 c).map (fun col => Cell.mk i col (F i col)))[t]
            = Cell.mk i (1 + t) (F i (1 + t)) := by
          rw [List.getElem_map]
          congr 1 <;> rw [List.getElem_range'] <;> simp
        have hR : (rowCells i vs)[t] = Cell.mk i (t + 1) vs[t] := by
          have htE : t < (List.enumFrom 0 vs).length := by
            simpa using htv
          simp only [rowCells, rowCellsFrom]
          rw [List.getElem_map]
          have he : (List.enumFrom 0 vs)[t] = (0 + t, vs[t]) :=
            List.getElem_enumFrom vs 0 t htE
          simp [he]
        rw [hL, hR]
        have hFv : F (i + 0) (t + 1) = vs.getD t Value.vNaN := by
          have := hF 0 (by simp) t htc
          simpa using this
        simp only [Nat.add_zero] at hFv
        rw [show 1 + t = t + 1 by omega, hFv, List.getD_eq_getElem _ _ htv]
    rw [hhead]
    show _ = rowCells i vs ++ rowsCells (i + 1) more
    congr 1
    apply ih
    · intro k hk
      have := hlen (k + 1) (by simpa using Nat.succ_lt_succ hk)
      simpa using this
    · intro k hk t htc
      have := hF (k + 1) (by simpa using Nat.succ_lt_succ hk) t htc
      rw [show i + 1 + k = i + (k + 1) by omega]
      simpa using this

theorem valueByName_of_nodup (df : DataFrame) (hnd : df.columns.Nodup) :
    ∀ k t, k < df.data.length → t < df.columns.length →
      df.valueByName (df.columns.getD t Value.vNaN) k
        = (df.data.getD k []).getD t Value.vNaN := by
  intro k t _ ht
  have hcol : df.columns.getD t Value.vNaN = df.columns[t] :=
    List.getD_eq_getElem _ _ ht
  rw [hcol]
  unfold DataFrame.valueByName
  rw [findIdx_nodup_getElem hnd t ht]

theorem assign_value_eq (df : DataFrame)
    (hvb : ∀ k t, k < df.data.length → t < df.columns.length →
      df.valueByName (df.columns.getD t Value.vNaN) k
        = (df.data.getD k []).getD t Value.vNaN)
    (k t : Nat) (hk : k < (df.columns :: df.data).length)
    (ht : t < df.columns.length) :
    (if 1 + k = 1 then df.columns.getD ((t + 1) - 1) Value.vNaN
     else df.valueByName (df.columns.getD ((t + 1) - 1) Value.vNaN) ((1 + k) - 2))
      = ((df.columns :: df.data).getD k []).getD t Value.vNaN := by
  cases k with
  | zero => simp
  | succ u =>
    have h1 : ¬(1 + (u + 1) = 1) := by omega
    rw [if_neg h1, show (t + 1) - 1 = t by omega,
      show 1 + (u + 1) - 2 = u by omega]
    have hu : u < df.data.length := by simpa using hk
    rw [hvb u t hu ht]
    rfl

theorem assigned_eq_rowsCells (df : DataFrame) (g : Grid) (cellList : List Cell)
    (hws : wsRange g 1 1 (df.data.length + 1) df.columns.length = some cellList)
    (hrect : ∀ row ∈ df.data, row.length = df.columns.length)
    (hvb : ∀ k t, k < df.data.length → t < df.columns.length →
      df.valueByName (df.columns.getD t Value.vNaN) k
        = (df.data.getD k []).getD t Value.vNaN) :
    cellList.map (assignCell df) = rowsCells 1 (df.columns :: df.data) := by
  unfold wsRange at hws
  split at hws
  · have hcl : cellList
        = ((List.range' 1 (df.data.length + 1 + 1 - 1)).map (fun row =>
            (List.range' 1 (df.columns.length + 1 - 1)).map (fun col =>
              Cell.mk row col (getCell g row col)))).flatten := (Option.some.inj hws).symm
    subst hcl
    rw [show df.data.length + 1 + 1 - 1 = df.data.length + 1 by omega,
      show df.columns.length + 1 - 1 = df.columns.length by omega]
    rw [List.map_flatten, List.map_map]
    have hinner : ((fun l => List.map (assignCell df) l) ∘ fun row =>
          (List.range' 1 df.columns.length).map (fun col =>
            Cell.mk row col (getCell g row col)))
        = fun row => (List.range' 1 df.columns.length).map (fun col =>
            Cell.mk row col (if row = 1 then df.columns.getD (col - 1) Value.vNaN
              else df.valueByName (df.columns.getD (col - 1) Value.vNaN) (row - 2))) := by
      funext row
      show List.map (assignCell df) _ = _
      rw [List.map_map]
      apply List.map_congr_left
      intro col _
      show assignCell df (Cell.mk row col (getCell g row col)) = _
      unfold assignCell
      by_cases hrow : row = 1
      · simp [hrow]
      · simp [hrow]
    rw [hinner]
    have hlenrv : ∀ k, k < (df.columns :: df.data).length →
        ((df.columns :: df.data).getD k []).length = df.columns.length := by
      intro k hk
      cases k with
      | zero => rfl
      | succ u =>
        have hu : u < df.data.length := by simpa using hk
        have hmem : df.data.getD u [] ∈ df.data := by
          rw [List.getD_eq_getElem _ _ hu]
          exact List.getElem_mem hu
        simpa using hrect _ hmem
    have hlenrows : (df.columns :: df.data).length = df.data.length + 1 := by simp
    rw [← hlenrows]
    apply flatten_map_eq_rowsCells df.columns.length _ (df.columns :: df.data) 1 hlenrv
    intro k hk t ht
    show (if 1 + k = 1 then df.columns.getD ((t + 1) - 1) Value.vNaN
      else df.valueByName (df.columns.getD ((t + 1) - 1) Value.vNaN) ((1 + k) - 2))
        = ((df.columns :: df.data).getD k []).getD t Value.vNaN
    exact assign_value_eq df hvb k t hk ht
  · exact absurd hws (by simp)

theorem write_structure (s : Spreadsheet) (df : DataFrame) (n : Nat) (g : Grid)
    (hg : s.get? (n - 1) = some g)
    (hrect : ∀ row ∈ df.data, row.length = df.columns.length)
    (hvb : ∀ k t, k < df.data.length → t < df.columns.length →
      df.valueByName (df.columns.getD t Value.vNaN) k
        = (df.data.getD k []).getD t Value.vNaN)
    (hR : df.data.length + 1 ≤ numRows g)
    (hC : df.columns.length ≤ numCols g)
    (hfit : ∀ row ∈ g, df.columns.length ≤ row.length) :
    write s df n = some
      (s.set (n - 1) (overlayRows (df.columns :: df.data) g),
       [SheetCall.getWorksheetCall (n - 1),
        SheetCall.rangeCall 1 1 (df.data.length + 1) df.columns.length,
        SheetCall.updateCellsCall (rowsCells 1 (df.columns :: df.data))]) := by
  have hcond : df.data.length + 1 ≤ numRows g ∧ df.columns.length ≤ numCols g := ⟨hR, hC⟩
  obtain ⟨cellList, hws⟩ : ∃ cl,
      wsRange g 1 1 (df.data.length + 1) df.columns.length = some cl := by
    unfold wsRange
    rw [if_pos hcond]
    exact ⟨_, rfl⟩
  have hassigned : cellList.map (assignCell df) = rowsCells 1 (df.columns :: df.data) :=
    assigned_eq_rowsCells df g cellList hws hrect hvb
  have hupd : update_cells g (rowsCells 1 (df.columns :: df.data))
      = overlayRows (df.columns :: df.data) g := by
    have hlen : (1 - 1) + (df.columns :: df.data).length ≤ g.length := by
      simp only [List.length_cons]
      have : numRows g = g.length := rfl
      omega
    have hfits : ∀ k, k < (df.columns :: df.data).length →
        ((df.columns :: df.data).getD k []).length ≤ (g.getD (1 - 1 + k) []).length := by
      intro k hk
      have hkg : k < g.length := by
        simp only [List.length_cons] at hk
        have : numRows g = g.length := rfl
        omega
      have hmemg : g.getD k [] ∈ g := by
        rw [List.getD_eq_getElem _ _ hkg]
        exact List.getElem_mem hkg
      have hglen : df.columns.length ≤ (g.getD k []).length := hfit _ hmemg
      have hrvlen : ((df.columns :: df.data).getD k []).length = df.columns.length := by
        cases k with
        | zero => rfl
        | succ u =>
          have hu : u < df.data.length := by simpa using hk
          have hmem : df.data.getD u [] ∈ df.data := by
            rw [List.getD_eq_getElem _ _ hu]
            exact List.getElem_mem hu
          simpa using hrect _ hmem
      rw [show 1 - 1 + k = k by omega, hrvlen]
      exact hglen
    have := update_cells_rowsCells (df.columns :: df.data) g 1 (by omega) hlen hfits
    simpa using this
  unfold write
  rw [hg]
  show (match wsRange g 1 1 (df.data.length + 1) df.columns.length with
    | none => none
    | some cellList =>
      some (s.set (n - 1) (update_cells g (cellList.map (assignCell df))),
        [SheetCall.getWorksheetCall (n - 1),
         SheetCall.rangeCall 1 1 (df.data.length + 1) df.columns.length,
         SheetCall.updateCellsCall (cellList.map (assignCell df))])) = _
  rw [hws]
  show some (s.set (n - 1) (update_cells g (cellList.map (assignCell df))), _) = _
  rw [hassigned, hupd]

/-! ## Reading back a freshly written blank worksheet -/

theorem isEmpty_replicate (m : Nat) :
    ∀ v ∈ List.replicate m blankVal, isEmptyVal v = true := by
  intro v hv
  rw [List.eq_of_mem_replicate hv]
  rfl

theorem all_false_of_mem {vs : List Value} {v : Value} (hv : v ∈ vs)
    (h : isEmptyVal v = false) : vs.all isEmptyVal = false := by
  rw [Bool.eq_false_iff]
  intro hall
  rw [List.all_eq_true] at hall
  rw [hall v hv] at h
  cases h

theorem trim_pad (vs : List Value) (m : Nat) :
    trimTrailing isEmptyVal (vs ++ List.replicate m blankVal)
      = trimTrailing isEmptyVal vs :=
  trimTrailing_append_all (isEmpty_replicate m)

theorem trim_nonempty_keep (vs : List Value) (hne : vs ≠ [])
    (hnames : ∀ v ∈ vs, isEmptyVal v = false) :
    trimTrailing isEmptyVal vs = vs :=
  trimTrailing_of_getLast hne (hnames _ (List.getLast_mem hne))

theorem overlayRows_blankGrid (rv : List (List Value)) (R C : Nat) (h : rv.length ≤ R) :
    overlayRows rv (blankGrid R C)
      = rv.map (fun vs => vs ++ List.replicate (C - vs.length) blankVal)
        ++ blankGrid (R - rv.length) C := by
  induction rv generalizing R with
  | nil => simp [overlayRows]
  | cons vs more ih =>
    cases R with
    | zero => simp at h
    | succ T =>
      show overlayRows (vs :: more) (List.replicate (T + 1) (List.replicate C blankVal)) = _
      rw [List.replicate_succ]
      show overlay vs (List.replicate C blankVal)
          :: overlayRows more (blankGrid T C) = _
      rw [ih T (by simpa using h)]
      have hov : overlay vs (List.replicate C blankVal)
          = vs ++ List.replicate (C - vs.length) blankVal := by
        unfold overlay
        rw [List.drop_replicate]
      rw [hov, List.map_cons]
      have harith : T + 1 - (vs :: more).length = T - more.length := by
        simp
      rw [show blankGrid (T + 1 - (vs :: more).length) C
          = blankGrid (T - more.length) C by rw [harith]]
      simp

theorem trimTrailing_concat_false {α : Type} {p : α → Bool} (xs : List α) (b : α)
    (hb : p b = false) : trimTrailing p (xs ++ [b]) = xs ++ [b] := by
  unfold trimTrailing
  rw [List.reverse_append]
  simp [List.dropWhile_cons, hb]

theorem get_all_values_eq (g : Grid) :
    get_all_values g
      = (trimTrailing (fun row => row.all isEmptyVal) g).map
          (fun row => row.take
            (((trimTrailing (fun row => row.all isEmptyVal) g).map
              (fun row => (trimTrailing isEmptyVal row).length)).foldr Nat.max 0)) := rfl

theorem readWs_none_eq (g : Grid) :
    readWs g none = .ok (pandasDataFrame (get_all_records g)
      ((row_values1 g).filter (fun v => !(isEmptyVal v)))) := rfl

theorem get_all_values_written (df : DataFrame) (R C : Nat)
    (hrect : ∀ row ∈ df.data, row.length = df.columns.length)
    (hcpos : 0 < df.columns.length)
    (hnames : ∀ v ∈ df.columns, isEmptyVal v = false)
    (hlastrow : ∀ ds w, df.data = ds ++ [w] → ∃ v ∈ w, isEmptyVal v = false)
    (hR : df.data.length + 1 ≤ R) (_hC : df.columns.length ≤ C) :
    get_all_values (overlayRows (df.columns :: df.data) (blankGrid R C))
      = df.columns :: df.data := by
  have hform := overlayRows_blankGrid (df.columns :: df.data) R C (by simpa using hR)
  rw [List.map_cons] at hform
  have hcne : df.columns ≠ [] := by
    intro h
    rw [h] at hcpos
    simp at hcpos
  have htrimhdr : trimTrailing isEmptyVal
      (df.columns ++ List.replicate (C - df.columns.length) blankVal) = df.columns := by
    rw [trim_pad]
    exact trim_nonempty_keep _ hcne hnames
  have hhdr_ne : (df.columns ++ List.replicate (C - df.columns.length) blankVal).all
      isEmptyVal = false := by
    have hmem : df.columns[0] ∈ df.columns ++ List.replicate (C - df.columns.length) blankVal :=
      List.mem_append_left _ (List.getElem_mem hcpos)
    exact all_false_of_mem hmem (hnames _ (List.getElem_mem hcpos))
  have hstep2 : trimTrailing (fun row => row.all isEmptyVal)
      ((df.columns ++ List.replicate (C - df.columns.length) blankVal)
        :: df.data.map (fun vs => vs ++ List.replicate (C - vs.length) blankVal))
      = (df.columns ++ List.replicate (C - df.columns.length) blankVal)
        :: df.data.map (fun vs => vs ++ List.replicate (C - vs.length) blankVal) := by
    rcases List.eq_nil_or_concat df.data with hd | ⟨ds, w, hd⟩
    · rw [hd]
      simp only [List.map_nil]
      have h1 : ((df.columns ++ List.replicate (C - df.columns.length) blankVal) :: [])
          = ([] : Grid) ++ [df.columns ++ List.replicate (C - df.columns.length) blankVal] := by
        simp
      rw [h1]
      exact trimTrailing_concat_false _ _ hhdr_ne
    · rw [List.concat_eq_append] at hd
      obtain ⟨v, hvmem, hvne⟩ := hlastrow ds w hd
      rw [hd, List.map_append]
      simp only [List.map_cons, List.map_nil]
      have h1 : (df.columns ++ List.replicate (C - df.columns.length) blankVal)
            :: (ds.map (fun vs => vs ++ List.replicate (C - vs.length) blankVal)
              ++ [w ++ List.replicate (C - w.length) blankVal])
          = ((df.columns ++ List.replicate (C - df.columns.length) blankVal)
            :: ds.map (fun vs => vs ++ List.replicate (C - vs.length) blankVal))
              ++ [w ++ List.replicate (C - w.length) blankVal] := by
        simp
      rw [h1]
      apply trimTrailing_concat_false
      exact all_false_of_mem (List.mem_append_left _ hvmem) hvne
  have htail : ∀ x ∈ blankGrid (R - (df.columns :: df.data).length) C,
      (fun row => row.all isEmptyVal) x = true := by
    intro x hx
    rw [List.eq_of_mem_replicate hx]
    rw [List.all_eq_true]
    exact isEmpty_replicate C
  have htrim : trimTrailing (fun row => row.all isEmptyVal)
      (((df.columns ++ List.replicate (C - df.columns.length) blankVal)
        :: df.data.map (fun vs => vs ++ List.replicate (C - vs.length) blankVal))
          ++ blankGrid (R - (df.columns :: df.data).length) C)
      = (df.columns ++ List.replicate (C - df.columns.length) blankVal)
        :: df.data.map (fun vs => vs ++ List.replicate (C - vs.length) blankVal) := by
    rw [trimTrailing_append_all htail]
    exact hstep2
  rw [get_all_values_eq, hform, htrim]
  have hwidth : (((df.columns ++ List.replicate (C - df.columns.length) blankVal)
        :: df.data.map (fun vs => vs ++ List.replicate (C - vs.length) blankVal)).map
          (fun row => (trimTrailing isEmptyVal row).length)).foldr Nat.max 0
      = df.columns.length := by
    rw [List.map_cons]
    have hhd : (trimTrailing isEmptyVal
        (df.columns ++ List.replicate (C - df.columns.length) blankVal)).length
        = df.columns.length := by
      rw [htrimhdr]
    rw [hhd]
    apply foldr_max_head
    intro x hx
    rw [List.map_map] at hx
    obtain ⟨row, hrowmem, hrow⟩ := List.mem_map.mp hx
    have hxval : x = (trimTrailing isEmptyVal row).length := by
      rw [← hrow]
      show (trimTrailing isEmptyVal (row ++ List.replicate (C - row.length) blankVal)).length
        = (trimTrailing isEmptyVal row).length
      rw [trim_pad]
    rw [hxval]
    calc (trimTrailing isEmptyVal row).length
        ≤ row.length := trimTrailing_length_le _ _
      _ = df.columns.length := hrect _ hrowmem
  rw [hwidth, List.map_cons]
  congr 1
  · show (df.columns ++ List.replicate (C - df.columns.length) blankVal).take
        df.columns.length = df.columns
    exact List.take_left _ _
  · rw [List.map_map]
    have hpt : ∀ row ∈ df.data,
        ((fun row => row.take df.columns.length)
          ∘ (fun vs => vs ++ List.replicate (C - vs.length) blankVal)) row = id row := by
      intro row hmem
      show (row ++ List.replicate (C - row.length) blankVal).take df.columns.length = row
      rw [← hrect row hmem]
      exact List.take_left _ _
    rw [List.map_congr_left hpt, List.map_id]

theorem readWs_written (df : DataFrame) (R C : Nat)
    (hrect : ∀ row ∈ df.data, row.length = df.columns.length)
    (hnd : df.columns.Nodup)
    (hcpos : 0 < df.columns.length)
    (hnames : ∀ v ∈ df.columns, isEmptyVal v = false)
    (hlastrow : ∀ ds w, df.data = ds ++ [w] → ∃ v ∈ w, isEmptyVal v = false)
    (hR : df.data.length + 1 ≤ R) (hC : df.columns.length ≤ C) :
    readWs (overlayRows (df.columns :: df.data) (blankGrid R C)) none
      = .ok ⟨df.columns, df.data⟩ := by
  have hgav := get_all_values_written df R C hrect hcpos hnames hlastrow hR hC
  have hrecords : get_all_records (overlayRows (df.columns :: df.data) (blankGrid R C))
      = df.data.map (fun w => df.columns.zip w) := by
    unfold get_all_records
    rw [hgav]
  have hcne : df.columns ≠ [] := by
    intro h
    rw [h] at hcpos
    simp at hcpos
  have hform := overlayRows_blankGrid (df.columns :: df.data) R C (by simpa using hR)
  rw [List.map_cons] at hform
  have hrv : row_values1 (overlayRows (df.columns :: df.data) (blankGrid R C))
      = df.columns := by
    unfold row_values1
    rw [hform]
    show trimTrailing isEmptyVal
      (df.columns ++ List.replicate (C - df.columns.length) blankVal) = df.columns
    rw [trim_pad]
    exact trim_nonempty_keep _ hcne hnames
  have hfilter : (row_values1 (overlayRows (df.columns :: df.data)
        (blankGrid R C))).filter (fun v => !(isEmptyVal v)) = df.columns := by
    rw [hrv]
    rw [List.filter_eq_self]
    intro a ha
    rw [hnames a ha]
    rfl
  rw [readWs_none_eq, hrecords, hfilter]
  unfold pandasDataFrame
  have hrows : (df.data.map (fun w => df.columns.zip w)).map
      (fun rec => df.columns.map (fun c => (dictGet rec c).getD Value.vNaN)) = df.data := by
    rw [List.map_map]
    have hpt : ∀ w ∈ df.data,
        ((fun rec => df.columns.map (fun c => (dictGet rec c).getD Value.vNaN))
          ∘ (fun w => df.columns.zip w)) w = id w := by
      intro w hmem
      show df.columns.map (fun c => (dictGet (df.columns.zip w) c).getD Value.vNaN) = w
      exact dictGet_zip_self hnd (hrect w hmem).symm
    rw [List.map_congr_left hpt, List.map_id]
  rw [hrows]

/-! ## Claim C1: the write/read round trip -/

/-- Claim C1 (amended): for every table with at least one column, distinct
and non-empty column names, and whose last row (when it has rows) contains
at least one non-empty value, writing the table to a blank worksheet large
enough to hold it and reading the worksheet back reproduces the table's
values and column order exactly (no caster supplied). -/
theorem c1_write_read_roundtrip (df : DataFrame) (R C : Nat)
    (hrect : ∀ row ∈ df.data, row.length = df.columns.length)
    (hnd : df.columns.Nodup)
    (hcpos : 0 < df.columns.length)
    (hnames : ∀ v ∈ df.columns, isEmptyVal v = false)
    (hlastrow : ∀ ds w, df.data = ds ++ [w] → ∃ v ∈ w, isEmptyVal v = false)
    (hR : df.data.length + 1 ≤ R) (hC : df.columns.length ≤ C) :
    ∃ s1 calls, write [blankGrid R C] df 1 = some (s1, calls)
      ∧ read s1 1 none = some (.ok df) := by
  have hg : ([blankGrid R C] : Spreadsheet).get? (1 - 1) = some (blankGrid R C) := rfl
  have hnumR : numRows (blankGrid R C) = R := by
    simp [numRows, blankGrid]
  have hnumC : numCols (blankGrid R C) = C := by
    cases R with
    | zero => omega
    | succ T =>
      show (List.headD (List.replicate (T + 1) (List.replicate C blankVal)) []).length = C
      rw [List.replicate_succ]
      simp
  have hfit : ∀ row ∈ blankGrid R C, df.columns.length ≤ row.length := by
    intro row hrow
    rw [List.eq_of_mem_replicate hrow]
    simpa using hC
  have hw := write_structure [blankGrid R C] df 1 (blankGrid R C) hg hrect
    (valueByName_of_nodup df hnd)
    (by rw [hnumR]; exact hR) (by rw [hnumC]; exact hC) hfit
  refine ⟨_, _, hw, ?_⟩
  have hset : ([blankGrid R C] : Spreadsheet).set (1 - 1)
      (overlayRows (df.columns :: df.data) (blankGrid R C))
      = [overlayRows (df.columns :: df.data) (blankGrid R C)] := rfl
  rw [hset]
  show some (readWs (overlayRows (df.columns :: df.data) (blankGrid R C)) none)
    = some (.ok df)
  rw [readWs_written df R C hrect hnd hcpos hnames hlastrow hR hC]

/-- Claim C1 witness: concrete round trip for a one-column, one-row table
on a blank 2-by-1 worksheet. -/
theorem c1_write_read_roundtrip_witness :
    ∃ s1 calls,
      write [blankGrid 2 1] (DataFrame.mk [Value.vStr "a"] [[Value.vInt 7]]) 1
        = some (s1, calls)
      ∧ read s1 1 none
        = some (.ok (DataFrame.mk [Value.vStr "a"] [[Value.vInt 7]])) := by
  apply c1_write_read_roundtrip (DataFrame.mk [Value.vStr "a"] [[Value.vInt 7]]) 2 1
  · decide
  · decide
  · decide
  · decide
  · intro ds w h
    cases ds with
    | nil =>
      have hw : w = [Value.vInt 7] := by
        simpa using h.symm
      rw [hw]
      decide
    | cons a as =>
      have hlen := congrArg List.length h
      simp at hlen
  · decide
  · decide

/-- Claim C1 counterexample: a table whose single column is named by the
empty string has distinct column names and fits the blank 2-by-1
worksheet, yet reading back after writing loses both the column and the
value, since `read` drops empty-string header cells. -/
theorem c1_roundtrip_counterexample :
    (write [blankGrid 2 1] (DataFrame.mk [Value.vStr ""] [[Value.vInt 5]]) 1).map
        (fun p => read p.1 1 none)
      = some (some (.ok (DataFrame.mk [] [[]])))
    ∧ DataFrame.mk ([] : List Value) [([] : List Value)]
        ≠ DataFrame.mk [Value.vStr ""] [[Value.vInt 5]] := by
  constructor
  · decide
  · decide

/-! ## Pointwise view of the written grid -/

theorem getCell_cons_succ (x : List Value) (l : Grid) (i j : Nat) (hi : 2 ≤ i) :
    getCell (x :: l) i j = getCell l (i - 1) j := by
  obtain ⟨t, rfl⟩ : ∃ t, i = t + 2 := ⟨i - 2, by omega⟩
  rfl

theorem overlay_getD (vs row : List Value) (j : Nat) :
    (overlay vs row).getD j blankVal
      = if j < vs.length then vs.getD j blankVal else row.getD j blankVal := by
  unfold overlay
  by_cases h : j < vs.length
  · rw [if_pos h, List.getD_eq_getElem?_getD, List.getD_eq_getElem?_getD,
      List.getElem?_append, if_pos h]
  · rw [if_neg h, List.getD_eq_getElem?_getD, List.getD_eq_getElem?_getD,
      List.getElem?_append, if_neg h, List.getElem?_drop]
    congr 2
    omega

theorem getCell_overlayRows (rv : List (List Value)) (g : Grid) (i j : Nat)
    (hi : 1 ≤ i) (hlen : rv.length ≤ g.length) :
    getCell (overlayRows rv g) i j
      = if i - 1 < rv.length ∧ j - 1 < ((rv.getD (i - 1) []) : List Value).length
        then (rv.getD (i - 1) []).getD (j - 1) blankVal
        else getCell g i j := by
  induction rv generalizing g i with
  | nil =>
    rw [if_neg (by simp)]
    rfl
  | cons vs more ih =>
    cases g with
    | nil => simp at hlen
    | cons row rest =>
      by_cases h1 : i = 1
      · subst h1
        have hL : getCell (overlayRows (vs :: more) (row :: rest)) 1 j
            = (overlay vs row).getD (j - 1) blankVal := rfl
        rw [hL, overlay_getD]
        by_cases h2 : j - 1 < vs.length
        · rw [if_pos h2, if_pos (by simpa using h2)]
          rfl
        · rw [if_neg h2, if_neg (by
            intro hc
            exact h2 (by simpa using hc.2))]
          rfl
      · obtain ⟨t, rfl⟩ : ∃ t, i = t + 2 := ⟨i - 2, by omega⟩
        have hL : getCell (overlayRows (vs :: more) (row :: rest)) (t + 2) j
            = getCell (overlayRows more rest) (t + 1) j := by
          show getCell (overlay vs row :: overlayRows more rest) (t + 2) j = _
          rw [getCell_cons_succ _ _ _ _ (by omega)]
          rfl
        rw [hL, ih rest (t + 1) (by omega) (by simpa using hlen)]
        have hR : getCell (row :: rest) (t + 2) j = getCell rest (t + 1) j :=
          getCell_cons_succ _ _ _ _ (by omega)
        have e1 : (t + 1) - 1 = t := rfl
        have e2 : (t + 2) - 1 = t + 1 := rfl
        by_cases hcc : t < more.length ∧ j - 1 < ((more.getD t []) : List Value).length
        · rw [if_pos (by rw [e1]; exact hcc),
            if_pos (by rw [e2, List.getD_cons_succ]; exact ⟨by simpa using hcc.1, hcc.2⟩)]
          rw [e1, e2, List.getD_cons_succ]
        · rw [if_neg (by rw [e1]; exact hcc),
            if_neg (by
              rw [e2, List.getD_cons_succ]
              intro hx
              exact hcc ⟨by simpa using hx.1, hx.2⟩), hR]

theorem rv_row_length (df : DataFrame)
    (hrect : ∀ row ∈ df.data, row.length = df.columns.length) :
    ∀ k, k < (df.columns :: df.data).length →
      (((df.columns :: df.data).getD k []) : List Value).length = df.columns.length := by
  intro k hk
  cases k with
  | zero => rfl
  | succ u =>
    have hu : u < df.data.length := by simpa using hk
    have hmem : df.data.getD u [] ∈ df.data := by
      rw [List.getD_eq_getElem _ _ hu]
      exact List.getElem_mem hu
    rw [List.getD_cons_succ]
    exact hrect _ hmem

theorem mem_rowCells {i : Nat} {vs : List Value} {cl : Cell} (h : cl ∈ rowCells i vs) :
    cl.row = i ∧ cl.value = vs.getD (cl.col - 1) Value.vNaN := by
  obtain ⟨t, ht, hget⟩ := List.getElem_of_mem h
  have htlen : t < vs.length := by
    simpa [rowCells, rowCellsFrom] using ht
  have htE : t < (List.enumFrom 0 vs).length := by simpa using htlen
  have hval : (rowCells i vs)[t] = Cell.mk i (t + 1) vs[t] := by
    simp only [rowCells, rowCellsFrom]
    rw [List.getElem_map]
    have he : (List.enumFrom 0 vs)[t] = (0 + t, vs[t]) :=
      List.getElem_enumFrom vs 0 t htE
    simp [he]
  rw [hval] at hget
  rw [← hget]
  refine ⟨rfl, ?_⟩
  show vs[t] = vs.getD ((t + 1) - 1) Value.vNaN
  rw [show (t + 1) - 1 = t by omega, List.getD_eq_getElem _ _ htlen]

theorem rowsCells_length (rv : List (List Value)) (i c : Nat)
    (h : ∀ vs ∈ rv, vs.length = c) : (rowsCells i rv).length = rv.length * c := by
  induction rv generalizing i with
  | nil => simp [rowsCells]
  | cons vs more ih =>
    show (rowCells i vs ++ rowsCells (i + 1) more).length = _
    rw [List.length_append]
    have h1 : (rowCells i vs).length = c := by
      have : (rowCells i vs).length = vs.length := by
        simp [rowCells, rowCellsFrom]
      rw [this]
      exact h vs (by simp)
    rw [h1, ih (i + 1) (fun ws hw => h ws (by simp [hw]))]
    rw [List.length_cons, Nat.succ_mul]
    omega

/-! ## Claim C2: the cell-level contract of `write` -/

/-- Claim C2: for every successful `write(handle, table, n)` (worksheet
`n - 1` exists, rectangle fits, table satisfies the Table invariant of
unique column names), the connector resolves the worksheet at 0-based
ordinal `n - 1` and no other, fetches exactly the rectangle rows
`1..row_count+1` by columns `1..column_count`, sets every fetched cell of
row 1 to the column name at its column position, sets every other fetched
cell at `(row, col)` to the table value at `(row - 2, col - 1)`, and
leaves all other cells and worksheets unchanged. -/
theorem c2_write_cell_contract (s : Spreadsheet) (df : DataFrame) (n : Nat) (g : Grid)
    (_hn : 1 ≤ n)
    (hg : s.get? (n - 1) = some g)
    (hrect : ∀ row ∈ df.data, row.length = df.columns.length)
    (hnd : df.columns.Nodup)
    (hR : df.data.length + 1 ≤ numRows g)
    (hC : df.columns.length ≤ numCols g)
    (hfit : ∀ row ∈ g, df.columns.length ≤ row.length) :
    ∃ g' assigned,
      write s df n = some (s.set (n - 1) g',
        [SheetCall.getWorksheetCall (n - 1),
         SheetCall.rangeCall 1 1 (df.data.length + 1) df.columns.length,
         SheetCall.updateCellsCall assigned])
      ∧ (∀ j, 1 ≤ j → j ≤ df.columns.length →
          getCell g' 1 j = df.columns.getD (j - 1) blankVal)
      ∧ (∀ i j, 2 ≤ i → i ≤ df.data.length + 1 → 1 ≤ j → j ≤ df.columns.length →
          getCell g' i j = (df.data.getD (i - 2) []).getD (j - 1) blankVal)
      ∧ (∀ i j, 1 ≤ i → (df.data.length + 1 < i ∨ df.columns.length < j) →
          getCell g' i j = getCell g i j)
      ∧ (∀ m, m ≠ n - 1 → (s.set (n - 1) g').get? m = s.get? m) := by
  have hlen : (df.columns :: df.data).length ≤ g.length := by
    have : numRows g = g.length := rfl
    simp only [List.length_cons]
    omega
  refine ⟨overlayRows (df.columns :: df.data) g, rowsCells 1 (df.columns :: df.data),
    write_structure s df n g hg hrect (valueByName_of_nodup df hnd) hR hC hfit,
    ?_, ?_, ?_, ?_⟩
  · intro j hj1 hjc
    rw [getCell_overlayRows _ _ 1 j (by omega) hlen]
    rw [if_pos ⟨by simp, by simp; omega⟩]
    rw [show (1 : Nat) - 1 = 0 from rfl, List.getD_cons_zero]
  · intro i j hi2 hir hj1 hjc
    obtain ⟨t, rfl⟩ : ∃ t, i = t + 2 := ⟨i - 2, by omega⟩
    rw [getCell_overlayRows _ _ (t + 2) j (by omega) hlen]
    have hc1 : (t + 2) - 1 < (df.columns :: df.data).length := by
      simp only [List.length_cons]
      omega
    have hc2 : j - 1 < (((df.columns :: df.data).getD ((t + 2) - 1) []) : List Value).length := by
      rw [rv_row_length df hrect _ hc1]
      omega
    rw [if_pos ⟨hc1, hc2⟩]
    rw [show (t + 2) - 1 = t + 1 from rfl, List.getD_cons_succ,
      show (t + 2) - 2 = t from rfl]
  · intro i j hi1 hout
    rw [getCell_overlayRows _ _ i j hi1 hlen]
    rw [if_neg ?_]
    intro hc
    rcases hout with hrow | hcol
    · have : i - 1 < df.data.length + 1 := by simpa using hc.1
      omega
    · have hlt := hc.2
      rw [rv_row_length df hrect _ hc.1] at hlt
      omega
  · intro m hm
    rw [List.get?_eq_getElem?, List.get?_eq_getElem?, List.getElem?_set]
    rw [if_neg (fun he => hm he.symm)]

/-- Claim C2 witness: the contract instantiated on a concrete one-column,
one-row table written to a blank 2-by-2 worksheet. -/
theorem c2_write_cell_contract_witness :
    ∃ g' assigned,
      write [blankGrid 2 2] (DataFrame.mk [Value.vStr "x"] [[Value.vInt 9]]) 1
          = some (([blankGrid 2 2] : Spreadsheet).set 0 g',
        [SheetCall.getWorksheetCall 0,
         SheetCall.rangeCall 1 1 2 1,
         SheetCall.updateCellsCall assigned])
      ∧ (∀ j, 1 ≤ j → j ≤ 1 →
          getCell g' 1 j = [Value.vStr "x"].getD (j - 1) blankVal)
      ∧ (∀ i j, 2 ≤ i → i ≤ 2 → 1 ≤ j → j ≤ 1 →
          getCell g' i j = ([[Value.vInt 9]].getD (i - 2) []).getD (j - 1) blankVal)
      ∧ (∀ i j, 1 ≤ i → (2 < i ∨ 1 < j) →
          getCell g' i j = getCell (blankGrid 2 2) i j)
      ∧ (∀ m, m ≠ 0 → (([blankGrid 2 2] : Spreadsheet).set 0 g').get? m
          = ([blankGrid 2 2] : Spreadsheet).get? m) := by
  have h := c2_write_cell_contract [blankGrid 2 2]
    (DataFrame.mk [Value.vStr "x"] [[Value.vInt 9]]) 1 (blankGrid 2 2)
    (by decide) (by decide) (by decide) (by decide) (by decide) (by decide) (by decide)
  simpa using h

/-! ## Claim C9: one batched update call -/

/-- Claim C9: for every table, whatever its row and column counts, a
successful `write` issues exactly one batched cell-update call, and that
single call carries every cell of the fetched rectangle (`(row_count + 1)
* column_count` cells), never one call per cell. -/
theorem c9_single_batched_update (s : Spreadsheet) (df : DataFrame) (n : Nat) (g : Grid)
    (_hn : 1 ≤ n)
    (hg : s.get? (n - 1) = some g)
    (hrect : ∀ row ∈ df.data, row.length = df.columns.length)
    (hnd : df.columns.Nodup)
    (hR : df.data.length + 1 ≤ numRows g)
    (hC : df.columns.length ≤ numCols g)
    (hfit : ∀ row ∈ g, df.columns.length ≤ row.length) :
    ∃ s1 calls, write s df n = some (s1, calls)
      ∧ calls.countP isUpdateCellsCall = 1
      ∧ ∀ cs, SheetCall.updateCellsCall cs ∈ calls
          → cs.length = (df.data.length + 1) * df.columns.length := by
  refine ⟨_, _,
    write_structure s df n g hg hrect (valueByName_of_nodup df hnd) hR hC hfit, ?_, ?_⟩
  · simp [List.countP_cons, isUpdateCellsCall]
  · intro cs hmem
    simp only [List.mem_cons, List.not_mem_nil, or_false] at hmem
    rcases hmem with h | h | h
    · exact SheetCall.noConfusion h
    · exact SheetCall.noConfusion h
    · have hcs : cs = rowsCells 1 (df.columns :: df.data) := by
        injection h
      subst hcs
      have hlens : ∀ vs ∈ df.columns :: df.data, vs.length = df.columns.length := by
        intro vs hv
        rcases List.mem_cons.mp hv with h1 | h1
        · rw [h1]
        · exact hrect _ h1
      rw [rowsCells_length _ _ _ hlens]
      simp

/-- Claim C9 witness: the single batched update on a concrete 2-row,
1-column table written to a blank 4-by-1 worksheet. -/
theorem c9_single_batched_update_witness :
    ∃ s1 calls,
      write [blankGrid 4 1]
          (DataFrame.mk [Value.vStr "h"] [[Value.vInt 1], [Value.vInt 2]]) 1
        = some (s1, calls)
      ∧ calls.countP isUpdateCellsCall = 1
      ∧ ∀ cs, SheetCall.updateCellsCall cs ∈ calls → cs.length = 3 * 1 := by
  have h := c9_single_batched_update [blankGrid 4 1]
    (DataFrame.mk [Value.vStr "h"] [[Value.vInt 1], [Value.vInt 2]]) 1 (blankGrid 4 1)
    (by decide) (by decide) (by decide) (by decide) (by decide) (by decide) (by decide)
  simpa using h

/-! ## Claim C10: writing a zero-row table -/

/-- Claim C10: for every table with zero rows and at least one column, a
successful `write` targets the one-row range rows 1..1 by columns
1..column_count, every batched cell has row 1 and carries the column name
at its column position (the data-cell branch is never taken), row 1 holds
the column names afterwards, and every other cell of the worksheet is
unchanged. -/
theorem c10_zero_rows_header_only (s : Spreadsheet) (df : DataFrame) (n : Nat) (g : Grid)
    (_hn : 1 ≤ n)
    (hg : s.get? (n - 1) = some g)
    (hzero : df.data = [])
    (hcpos : 0 < df.columns.length)
    (hR1 : 1 ≤ numRows g)
    (hC : df.columns.length ≤ numCols g)
    (hfit : ∀ row ∈ g, df.columns.length ≤ row.length) :
    ∃ g' assigned,
      write s df n = some (s.set (n - 1) g',
        [SheetCall.getWorksheetCall (n - 1),
         SheetCall.rangeCall 1 1 1 df.columns.length,
         SheetCall.updateCellsCall assigned])
      ∧ (∀ cl ∈ assigned, cl.row = 1
          ∧ cl.value = df.columns.getD (cl.col - 1) Value.vNaN)
      ∧ (∀ j, 1 ≤ j → j ≤ df.columns.length →
          getCell g' 1 j = df.columns.getD (j - 1) blankVal)
      ∧ (∀ j, df.columns.length < j → getCell g' 1 j = getCell g 1 j)
      ∧ (∀ i j, 2 ≤ i → getCell g' i j = getCell g i j) := by
  obtain ⟨cols, data⟩ := df
  replace hzero : data = [] := hzero
  subst hzero
  have hrect : ∀ row ∈ (DataFrame.mk cols []).data,
      row.length = (DataFrame.mk cols []).columns.length := by
    intro row hrow
    cases hrow
  have hvb : ∀ k t, k < (DataFrame.mk cols []).data.length →
      t < (DataFrame.mk cols []).columns.length →
      (DataFrame.mk cols []).valueByName
          ((DataFrame.mk cols []).columns.getD t Value.vNaN) k
        = ((DataFrame.mk cols []).data.getD k []).getD t Value.vNaN := by
    intro k t hk
    cases hk
  have hlen : (cols :: ([] : List (List Value))).length ≤ g.length := by
    have : numRows g = g.length := rfl
    simp only [List.length_cons, List.length_nil]
    omega
  refine ⟨overlayRows [cols] g, rowsCells 1 [cols],
    write_structure s (DataFrame.mk cols []) n g hg hrect hvb
      (by simpa using hR1) hC hfit, ?_, ?_, ?_, ?_⟩
  · intro cl hcl
    have hcl2 : cl ∈ rowCells 1 cols := by
      have hr : rowsCells 1 [cols] = rowCells 1 cols ++ [] := rfl
      rw [hr, List.append_nil] at hcl
      exact hcl
    exact mem_rowCells hcl2
  · intro j hj1 hjc
    replace hjc : j ≤ cols.length := hjc
    rw [getCell_overlayRows _ _ 1 j (by omega) hlen]
    rw [if_pos ⟨by simp, by simp; omega⟩]
    rw [show (1 : Nat) - 1 = 0 from rfl, List.getD_cons_zero]
  · intro j hjc
    replace hjc : cols.length < j := hjc
    rw [getCell_overlayRows _ _ 1 j (by omega) hlen]
    rw [if_neg ?_]
    intro hc
    have := hc.2
    simp only [show (1 : Nat) - 1 = 0 from rfl, List.getD_cons_zero] at this
    omega
  · intro i j hi2
    rw [getCell_overlayRows _ _ i j (by omega) hlen]
    rw [if_neg ?_]
    intro hc
    have := hc.1
    simp only [List.length_cons, List.length_nil] at this
    omega

/-- Claim C10 witness: writing a zero-row, two-column table to a blank
2-by-3 worksheet touches only the two header cells of row 1. -/
theorem c10_zero_rows_header_only_witness :
    ∃ g' assigned,
      write [blankGrid 2 3] (DataFrame.mk [Value.vStr "a", Value.vStr "b"] []) 1
          = some (([blankGrid 2 3] : Spreadsheet).set 0 g',
        [SheetCall.getWorksheetCall 0,
         SheetCall.rangeCall 1 1 1 2,
         SheetCall.updateCellsCall assigned])
      ∧ (∀ cl ∈ assigned, cl.row = 1
          ∧ cl.value = [Value.vStr "a", Value.vStr "b"].getD (cl.col - 1) Value.vNaN)
      ∧ (∀ j, 1 ≤ j → j ≤ 2 →
          getCell g' 1 j = [Value.vStr "a", Value.vStr "b"].getD (j - 1) blankVal)
      ∧ (∀ j, 2 < j → getCell g' 1 j = getCell (blankGrid 2 3) 1 j)
      ∧ (∀ i j, 2 ≤ i → getCell g' i j = getCell (blankGrid 2 3) i j) := by
  have h := c10_zero_rows_header_only [blankGrid 2 3]
    (DataFrame.mk [Value.vStr "a", Value.vStr "b"] []) 1 (blankGrid 2 3)
    (by decide) (by decide) (by decide) (by decide) (by decide) (by decide) (by decide)
  simpa using h

/-! ## Claims C4, C5, C8: the read side -/

theorem readWs_some_eq (g : Grid) (m : List (Value × DType)) :
    readWs g (some m)
      = m.foldl (fun acc p => acc.bind (fun d => applyCast d p.1 p.2))
          (.ok (pandasDataFrame (get_all_records g)
            ((row_values1 g).filter (fun v => !(isEmptyVal v))))) := rfl

theorem foldl_bind_error (m : List (Value × DType)) (e : ReadError) :
    m.foldl (fun acc p => acc.bind (fun d => applyCast d p.1 p.2))
        (Except.error e) = .error e := by
  induction m with
  | nil => rfl
  | cons p rest ih =>
    show rest.foldl _ ((Except.error e).bind _) = _
    exact ih

theorem mapM_eq_none {f : Value → Option Value} (vals : List Value) (v : Value)
    (hv : v ∈ vals) (hf : f v = none) : vals.mapM f = none := by
  induction vals with
  | nil => cases hv
  | cons x xs ih =>
    rw [List.mapM_cons]
    rcases List.mem_cons.mp hv with h1 | h1
    · subst h1
      rw [hf]
      rfl
    · cases hx : f x with
      | none => rfl
      | some b =>
        rw [ih h1]
        rfl

theorem applyCast_columns {d d' : DataFrame} {col : Value} {ty : DType}
    (h : applyCast d col ty = .ok d') : d'.columns = d.columns := by
  unfold applyCast at h
  split at h
  · split at h
    · have := Except.ok.inj h
      rw [← this]
    · exact Except.noConfusion h
  · exact Except.noConfusion h

theorem foldl_ok_columns (m : List (Value × DType))
    (acc : Except ReadError DataFrame) (df : DataFrame)
    (h : m.foldl (fun acc p => acc.bind (fun d => applyCast d p.1 p.2)) acc = .ok df) :
    ∃ df0, acc = .ok df0 ∧ df.columns = df0.columns := by
  induction m generalizing acc with
  | nil => exact ⟨df, h, rfl⟩
  | cons p rest ih =>
    have h2 : rest.foldl (fun acc p => acc.bind (fun d => applyCast d p.1 p.2))
        (acc.bind (fun d => applyCast d p.1 p.2)) = .ok df := h
    obtain ⟨d1, hacc1, hcols⟩ := ih _ h2
    cases acc with
    | error e => exact Except.noConfusion hacc1
    | ok d0 =>
      have happ : applyCast d0 p.1 p.2 = .ok d1 := hacc1
      exact ⟨d0, rfl, hcols.trans (applyCast_columns happ)⟩

/-- Claim C4 (amended): for every `read` whose `data_types` map starts
with an entry binding a column that is present in the read table to a
type some of its values cannot be represented in, the operation fails
with the typecast error naming that column and target type.  (The claim
as stated, quantifying over any map containing such an entry, fails when
an earlier entry errors first; see the counterexample.) -/
theorem c4_cast_failure (g : Grid) (col : Value) (rest : List (Value × DType))
    (df0 : DataFrame)
    (h0 : readWs g none = .ok df0)
    (hmem : col ∈ df0.columns)
    (hbad : ∃ v ∈ df0.colByName col, castValue .dInt v = none) :
    readWs g (some ((col, .dInt) :: rest)) = .error (.castError col .dInt) := by
  have hdf0 : pandasDataFrame (get_all_records g)
      ((row_values1 g).filter (fun v => !(isEmptyVal v))) = df0 := by
    rw [readWs_none_eq g] at h0
    exact Except.ok.inj h0
  rw [readWs_some_eq, hdf0, List.foldl_cons]
  have happ : (Except.ok df0).bind
      (fun d => applyCast d (col, DType.dInt).1 (col, DType.dInt).2)
      = Except.error (ReadError.castError col .dInt) := by
    show applyCast df0 col DType.dInt = _
    unfold applyCast
    rw [if_pos hmem]
    have hnone : castColumn .dInt
        (df0.colValuesAt (df0.columns.findIdx (fun c => decide (c = col)))) = none := by
      obtain ⟨v, hvmem, hvf⟩ := hbad
      exact mapM_eq_none _ v hvmem hvf
    rw [hnone]
  rw [happ]
  exact foldl_bind_error rest _

/-- Claim C4 witness: casting the non-numeric column "age" to `int`
fails with the typecast error naming "age" and `int`. -/
theorem c4_cast_failure_witness :
    readWs [[Value.vStr "age"], [Value.vStr "x"]]
        (some [(Value.vStr "age", DType.dInt)])
      = .error (.castError (Value.vStr "age") .dInt) := by
  apply c4_cast_failure [[Value.vStr "age"], [Value.vStr "x"]] (Value.vStr "age") []
    (DataFrame.mk [Value.vStr "age"] [[Value.vStr "x"]])
  · decide
  · decide
  · decide

/-- Claim C4 counterexample: the same sheet read with the map
`{missing: str, age: int}` satisfies the claim's premise (it maps the
present column "age" to a type its values cannot take) yet fails with
`KeyError` for the earlier entry "missing", not with the typecast error
naming "age". -/
theorem c4_cast_failure_counterexample :
    readWs [[Value.vStr "age"], [Value.vStr "x"]]
        (some [(Value.vStr "missing", DType.dStr), (Value.vStr "age", DType.dInt)])
      = .error (.keyError (Value.vStr "missing"))
    ∧ Except.error (ε := ReadError) (α := DataFrame) (.keyError (Value.vStr "missing"))
        ≠ .error (.castError (Value.vStr "age") .dInt) := by
  constructor
  · decide
  · decide

/-- Claim C5 (amended): for every `read` whose `data_types` map starts
with an entry naming a column absent from the read table, the operation
fails with the `KeyError` naming that column, whatever the remaining
entries; no cast is attempted.  (The claim as stated, quantifying over
any map naming an absent column, fails when an earlier entry's cast
errors first; see the counterexample.) -/
theorem c5_key_not_found (g : Grid) (col : Value) (ty : DType)
    (rest : List (Value × DType)) (df0 : DataFrame)
    (h0 : readWs g none = .ok df0)
    (hmem : col ∉ df0.columns) :
    readWs g (some ((col, ty) :: rest)) = .error (.keyError col) := by
  have hdf0 : pandasDataFrame (get_all_records g)
      ((row_values1 g).filter (fun v => !(isEmptyVal v))) = df0 := by
    rw [readWs_none_eq g] at h0
    exact Except.ok.inj h0
  rw [readWs_some_eq, hdf0, List.foldl_cons]
  have happ : (Except.ok df0).bind (fun d => applyCast d (col, ty).1 (col, ty).2)
      = Except.error (ReadError.keyError col) := by
    show applyCast df0 col ty = _
    unfold applyCast
    rw [if_neg hmem]
  rw [happ]
  exact foldl_bind_error rest _

/-- Claim C5 witness: requesting a cast for the absent column
"missing_col" fails with the `KeyError` naming it, before any cast. -/
theorem c5_key_not_found_witness :
    readWs [[Value.vStr "age"], [Value.vStr "x"]]
        (some [(Value.vStr "missing_col", DType.dStr)])
      = .error (.keyError (Value.vStr "missing_col")) := by
  apply c5_key_not_found [[Value.vStr "age"], [Value.vStr "x"]]
    (Value.vStr "missing_col") DType.dStr []
    (DataFrame.mk [Value.vStr "age"] [[Value.vStr "x"]])
  · decide
  · decide

/-- Claim C5 counterexample: the map `{age: int, missing: str}` names the
absent column "missing", yet the read fails with the typecast error for
the earlier entry "age" — a cast is attempted and `KeyError` is never
raised. -/
theorem c5_key_not_found_counterexample :
    readWs [[Value.vStr "age"], [Value.vStr "x"]]
        (some [(Value.vStr "age", DType.dInt), (Value.vStr "missing", DType.dStr)])
      = .error (.castError (Value.vStr "age") .dInt)
    ∧ Except.error (ε := ReadError) (α := DataFrame) (.castError (Value.vStr "age") .dInt)
        ≠ .error (.keyError (Value.vStr "missing")) := by
  constructor
  · decide
  · decide

/-- Claim C8: for every worksheet and every successful `read`, the
returned table's columns are exactly the non-empty cell values of header
row 1, in order, with empty-string header cells dropped. -/
theorem c8_read_columns (g : Grid) (dt : Option (List (Value × DType)))
    (df : DataFrame) (h : readWs g dt = .ok df) :
    df.columns = (g.headD []).filter (fun v => !(isEmptyVal v)) := by
  have hbase : (pandasDataFrame (get_all_records g)
      ((row_values1 g).filter (fun v => !(isEmptyVal v)))).columns
      = (g.headD []).filter (fun v => !(isEmptyVal v)) := by
    show (row_values1 g).filter (fun v => !(isEmptyVal v))
      = (g.headD []).filter (fun v => !(isEmptyVal v))
    unfold row_values1
    exact filter_trimTrailing isEmptyVal (g.headD [])
  cases dt with
  | none =>
    rw [readWs_none_eq g] at h
    rw [← Except.ok.inj h]
    exact hbase
  | some m =>
    rw [readWs_some_eq] at h
    obtain ⟨df0, hacc, hcols⟩ := foldl_ok_columns m _ df h
    rw [hcols, ← Except.ok.inj hacc]
    exact hbase

/-- Claim C8 witness: a sheet whose header row is `["a", "", "b"]` reads
back with columns `["a", "b"]`. -/
theorem c8_read_columns_witness :
    (DataFrame.mk [Value.vStr "a", Value.vStr "b"] [[Value.vInt 1, Value.vInt 3]]).columns
      = (([[Value.vStr "a", Value.vStr "", Value.vStr "b"],
          [Value.vInt 1, Value.vInt 2, Value.vInt 3]] : Grid).headD []).filter
            (fun v => !(isEmptyVal v)) := by
  apply c8_read_columns
    [[Value.vStr "a", Value.vStr "", Value.vStr "b"],
     [Value.vInt 1, Value.vInt 2, Value.vInt 3]] none
  decide

/-! ## Claims C3, C6, C7: opening and creating spreadsheets -/

/-- Claim C3 (code bug): on a freshly constructed connector, opening a
title that resolves to no accessible spreadsheet with `create = False`
does reach the failure branch without creating anything (the Drive state
and call trace show only the lookup), but the branch itself crashes with
`AttributeError` on `self.creds` — an attribute `__init__` never assigns
— before the NotFound message naming the title and the service-account
identity can be built. -/
theorem c3_open_not_found_attribute_error :
    (connectorInit (some "owner@example.com")).openSpreadsheet
        (DriveState.mk [DriveSheet.mk "existing" 0] [] 1) "missing" false
      = (.error (.attributeError "creds"),
         DriveState.mk [DriveSheet.mk "existing" 0] [] 1,
         [.openCall "missing"]) := by
  decide

/-- Claim C6: opening a non-existent title with `create = True` on a
connector whose `share_with` grantee is configured creates exactly one
new spreadsheet carrying the requested title, issues exactly one share
call granting that grantee writer access, and returns the new handle. -/
theorem c6_create_and_share (conn : GoogleSheetConnector) (st : DriveState)
    (title grantee : String)
    (hnone : clientOpen st title = none)
    (hshare : conn.share_with = some grantee) (hne : grantee ≠ "") :
    ∃ sh st2 calls,
      conn.openSpreadsheet st title true = (.ok sh, st2, calls)
      ∧ sh.title = title
      ∧ st2.sheets = st.sheets ++ [sh]
      ∧ st2.shares = st.shares ++ [ShareRec.mk sh.id grantee "user" "writer"]
      ∧ calls.countP isCreateCall = 1
      ∧ calls.countP isShareCall = 1 := by
  unfold GoogleSheetConnector.openSpreadsheet
  rw [hnone]
  rw [if_neg (by simp)]
  rw [if_neg (by
    rw [hshare]
    simp [truthy, hne])]
  rw [hshare]
  refine ⟨DriveSheet.mk title st.nextId, _, _, rfl, rfl, rfl, rfl, ?_, ?_⟩
  · simp [List.countP_cons, isCreateCall, isShareCall]
  · simp [List.countP_cons, isCreateCall, isShareCall]

/-- Claim C6 witness: concrete creation and sharing of the title "report"
for the grantee "owner@example.com" on a one-sheet Drive state. -/
theorem c6_create_and_share_witness :
    ∃ sh st2 calls,
      (connectorInit (some "owner@example.com")).openSpreadsheet
          (DriveState.mk [DriveSheet.mk "other" 0] [] 1) "report" true
        = (.ok sh, st2, calls)
      ∧ sh.title = "report"
      ∧ st2.sheets = [DriveSheet.mk "other" 0] ++ [sh]
      ∧ st2.shares = [] ++ [ShareRec.mk sh.id "owner@example.com" "user" "writer"]
      ∧ calls.countP isCreateCall = 1
      ∧ calls.countP isShareCall = 1 := by
  apply c6_create_and_share (connectorInit (some "owner@example.com"))
    (DriveState.mk [DriveSheet.mk "other" 0] [] 1) "report" "owner@example.com"
  · decide
  · rfl
  · decide

/-- Claim C7: opening a non-existent title with `create = True` on a
connector constructed without a default grantee fails with the
configuration error and makes no creation call: the Drive state is
returned unchanged and the call trace holds only the title lookup. -/
theorem c7_no_grantee_configuration_error (conn : GoogleSheetConnector)
    (st : DriveState) (title : String)
    (hnone : clientOpen st title = none)
    (hshare : conn.share_with = none) :
    ∃ calls,
      conn.openSpreadsheet st title true
        = (.error (.configError
            "Creating sheets is not possible if \"share_with\" is unset."),
           st, calls)
      ∧ calls.countP isCreateCall = 0 := by
  unfold GoogleSheetConnector.openSpreadsheet
  rw [hnone]
  rw [if_neg (by simp)]
  rw [if_pos (by rw [hshare]; rfl)]
  exact ⟨[.openCall title], rfl, by simp [isCreateCall]⟩

/-- Claim C7 witness: the configuration failure on a concrete
grantee-less connector and a non-existent title. -/
theorem c7_no_grantee_configuration_error_witness :
    ∃ calls,
      (connectorInit none).openSpreadsheet
          (DriveState.mk [DriveSheet.mk "other" 0] [] 1) "report" true
        = (.error (.configError
            "Creating sheets is not possible if \"share_with\" is unset."),
           DriveState.mk [DriveSheet.mk "other" 0] [] 1, calls)
      ∧ calls.countP isCreateCall = 0 := by
  apply c7_no_grantee_configuration_error (connectorInit none)
    (DriveState.mk [DriveSheet.mk "other" 0] [] 1) "report"
  · decide
  · rfl
